import Mathlib

/-!
Formal model of the semaphore library (semaphore.h / semaphore.c): a table of
32 binary semaphores backed by one 32-bit word, and a heap-allocated counting
semaphore with a reserved-resource counter.  Machine integers are modelled as
natural numbers with explicit reduction modulo 2^16 / 2^32 / 2^64 where the C
code stores into a fixed-width integer.  The spin-wait loops in the take
operations are modelled by partiality: a call whose loop condition never lets
it proceed is `none` (the caller stays blocked); a `some` result describes a
call that completed.
-/

/-- Constant from semaphore.h: the number of binary semaphores (32). -/
def BINARY_SEMAPHORE_LIMIT : Nat := 32

/-- Constant from semaphore.h: the highest permitted binary semaphore ID (31). -/
def BINARY_SEMAPHORE_ID_MAX : Nat := BINARY_SEMAPHORE_LIMIT - 1

/-- Modulus of the C type uint16_t. -/
def UINT16_MOD : Nat := 2 ^ 16

/-- Modulus of the C type uint32_t, the type of the `binary_semaphores` word. -/
def UINT32_MOD : Nat := 2 ^ 32

/-- Value of ~0ULL, the all-ones 64-bit word; ~x on unsigned long long is x XOR this. -/
def UINT64_MAX : Nat := 2 ^ 64 - 1

/-- Model of `binary_semaphore_take` from semaphore.c acting on the 32-bit word
`binary_semaphores` (the state `s`, an unsigned 32-bit value).  An ID above
`BINARY_SEMAPHORE_ID_MAX` returns false with no state change.  Otherwise the
code spins in `while (binary_semaphores & (1ULL << sem_id));`: a call that
never observes the bit clear stays blocked (`none`); a completed call observed
the bit clear, set it with `binary_semaphores |= (1ULL << sem_id)` (the store
truncates to 32 bits) and returned true. -/
def binary_semaphore_take (sem_id : Nat) (s : Nat) : Option (Bool × Nat) :=
  if sem_id > BINARY_SEMAPHORE_ID_MAX then some (false, s)
  else if s &&& (1 <<< sem_id) ≠ 0 then none
  else some (true, (s ||| (1 <<< sem_id)) % UINT32_MOD)

/-- Model of `binary_semaphore_release` from semaphore.c.  An ID above
`BINARY_SEMAPHORE_ID_MAX` returns false with no state change; otherwise the
code clears the bit with `binary_semaphores &= ~(1ULL << sem_id)` (the mask is
the 64-bit complement, the store truncates to 32 bits) and returns true. -/
def binary_semaphore_release (sem_id : Nat) (s : Nat) : Bool × Nat :=
  if sem_id > BINARY_SEMAPHORE_ID_MAX then (false, s)
  else (true, (s &&& ((1 <<< sem_id) ^^^ UINT64_MAX)) % UINT32_MOD)

/-- Model of `struct counting_semaphore` from semaphore.c: two uint16_t fields,
the reserved-resource count and the total resource count. -/
structure counting_semaphore where
  num_reserved_resources : Nat
  num_total_resources : Nat
  deriving DecidableEq

/-- Model of `counting_semaphore_new` from semaphore.c.  The C function returns
a null pointer when `num_resources == 0` or when `malloc` fails; success of the
allocator is the boolean parameter `allocOk`.  On success the new semaphore has
`num_reserved_resources = 0` and `num_total_resources = num_resources`. -/
def counting_semaphore_new (num_resources : Nat) (allocOk : Bool) :
    Option counting_semaphore :=
  if num_resources = 0 then none
  else if allocOk then some ⟨0, num_resources⟩
  else none

/-- Model of `counting_semaphore_num_reserved` from semaphore.c: returns the
reserved-resource counter. -/
def counting_semaphore_num_reserved (self : counting_semaphore) : Nat :=
  self.num_reserved_resources

/-- Model of `counting_semaphore_num_available` from semaphore.c: returns
`num_total_resources - num_reserved_resources` computed in C integer
arithmetic and stored into uint16_t; for operands below 2^16 that value is
`(total + 2^16 - reserved) % 2^16`. -/
def counting_semaphore_num_available (self : counting_semaphore) : Nat :=
  (self.num_total_resources + UINT16_MOD - self.num_reserved_resources) % UINT16_MOD

/-- Model of `counting_semaphore_take` from semaphore.c.  The code spins in
`while (num_reserved_resources >= num_total_resources);`: a call that never
observes a free resource stays blocked (`none`); a completed call observed
`reserved < total` and incremented the uint16_t counter. -/
def counting_semaphore_take (self : counting_semaphore) : Option counting_semaphore :=
  if self.num_reserved_resources ≥ self.num_total_resources then none
  else some ⟨(self.num_reserved_resources + 1) % UINT16_MOD, self.num_total_resources⟩

/-- Model of `counting_semaphore_release` from semaphore.c: decrements the
reserved-resource counter when it is positive, otherwise does nothing. -/
def counting_semaphore_release (self : counting_semaphore) : counting_semaphore :=
  if self.num_reserved_resources > 0 then
    ⟨self.num_reserved_resources - 1, self.num_total_resources⟩
  else self

/-- Operations a caller can apply to a counting semaphore handle. -/
inductive CountingOp where
  | take
  | release
  deriving DecidableEq

/-- Effect of one completed-or-blocked operation on a counting semaphore: a
take that stays blocked leaves the state unchanged (the blocked caller has not
completed `take`); a completed take and a release act as in semaphore.c. -/
def counting_apply (s : counting_semaphore) (op : CountingOp) : counting_semaphore :=
  match op with
  | CountingOp.take => (counting_semaphore_take s).getD s
  | CountingOp.release => counting_semaphore_release s

/-- State of a counting semaphore after a sequence of take/release operations. -/
def counting_run (s : counting_semaphore) (ops : List CountingOp) : counting_semaphore :=
  ops.foldl counting_apply s

/-- Helper: the bit test `s & (1ULL << i)` in the C code is nonzero exactly
when bit `i` of `s` is set. -/
theorem land_shift_ne_zero (s i : Nat) : s &&& (1 <<< i) ≠ 0 ↔ s.testBit i := by
  rw [Nat.one_shiftLeft, Nat.and_two_pow]
  cases h : s.testBit i <;> simp [h, Nat.pos_iff_ne_zero.mp (Nat.two_pow_pos i)]

/-- C6: for every ID outside [0, 31], both `binary_semaphore_take` and
`binary_semaphore_release` return false and leave the 32-bit semaphore word
completely unchanged. -/
theorem binary_invalid_id_no_effect (sem_id s : Nat)
    (hid : sem_id > BINARY_SEMAPHORE_ID_MAX) :
    binary_semaphore_take sem_id s = some (false, s) ∧
    binary_semaphore_release sem_id s = (false, s) := by
  constructor
  · simp [binary_semaphore_take, hid]
  · simp [binary_semaphore_release, hid]

/-- Witness for C6 at the concrete invalid ID 32 and state 5. -/
theorem binary_invalid_id_no_effect_witness :
    32 > BINARY_SEMAPHORE_ID_MAX ∧
    (binary_semaphore_take 32 5 = some (false, 5) ∧
      binary_semaphore_release 32 5 = (false, 5)) :=
  ⟨by decide, binary_invalid_id_no_effect 32 5 (by decide)⟩

/-- C8: `counting_semaphore_new` returns null exactly when the requested
capacity is 0 or the allocation fails, and on success returns a handle with
reserved count 0 and total capacity equal to the request. -/
theorem counting_new_correct (num_resources : Nat) (allocOk : Bool) :
    (counting_semaphore_new num_resources allocOk = none ↔
      num_resources = 0 ∨ allocOk = false) ∧
    (∀ cs, counting_semaphore_new num_resources allocOk = some cs →
      cs.num_reserved_resources = 0 ∧ cs.num_total_resources = num_resources) := by
  unfold counting_semaphore_new
  by_cases h0 : num_resources = 0 <;> cases allocOk <;> simp [h0]

/-- Witness for C8 at the concrete capacity 3 with a successful allocation. -/
theorem counting_new_correct_witness :
    (counting_semaphore_new 3 true = none ↔ (3 : Nat) = 0 ∨ true = false) ∧
    (∀ cs, counting_semaphore_new 3 true = some cs →
      cs.num_reserved_resources = 0 ∧ cs.num_total_resources = 3) :=
  counting_new_correct 3 true

/-- C9: `counting_semaphore_release` maps the reserved count to
`reserved - 1` clamped at 0 (a decrement when positive, a no-op at 0), keeps
the capacity, and any number of extra releases from reserved count 0 leave the
reserved count at 0. -/
theorem counting_release_clamped (cs : counting_semaphore) (n : Nat) :
    (counting_semaphore_release cs).num_reserved_resources =
      cs.num_reserved_resources - 1 ∧
    (counting_semaphore_release cs).num_total_resources =
      cs.num_total_resources ∧
    (Nat.iterate counting_semaphore_release n
      ⟨0, cs.num_total_resources⟩).num_reserved_resources = 0 := by
  refine ⟨?_, ?_, ?_⟩
  · unfold counting_semaphore_release
    by_cases h : cs.num_reserved_resources > 0
    · simp [h]
    · simp [h]
      omega
  · unfold counting_semaphore_release
    by_cases h : cs.num_reserved_resources > 0 <;> simp [h]
  · have hfix :
        counting_semaphore_release ⟨0, cs.num_total_resources⟩ =
          (⟨0, cs.num_total_resources⟩ : counting_semaphore) := by
      simp [counting_semaphore_release]
    rw [Function.iterate_fixed hfix n]

/-- Helper: the bit test `s & (1ULL << i)` in the C code is zero exactly when
bit `i` of `s` is clear. -/
theorem land_shift_eq_zero (s i : Nat) : s &&& (1 <<< i) = 0 ↔ s.testBit i = false := by
  rw [Nat.one_shiftLeft, Nat.and_two_pow]
  cases h : s.testBit i <;> simp [h, Nat.pos_iff_ne_zero.mp (Nat.two_pow_pos i)]

/-- Helper: a valid binary semaphore ID is below 32 and below 64. -/
theorem valid_id_bounds {sem_id : Nat} (hid : sem_id ≤ BINARY_SEMAPHORE_ID_MAX) :
    sem_id < 32 ∧ sem_id < 64 := by
  simp [BINARY_SEMAPHORE_ID_MAX, BINARY_SEMAPHORE_LIMIT] at hid
  omega

/-- Helper: reducing modulo 2^32 (the truncating store into uint32_t) keeps
every bit below 32 unchanged. -/
theorem mod_u32_testBit (x j : Nat) (hj : j < 32) :
    (x % UINT32_MOD).testBit j = x.testBit j := by
  unfold UINT32_MOD
  rw [Nat.testBit_mod_two_pow]
  simp [hj]

/-- Helper: bits of the word after `s | (1ULL << sem_id)`. -/
theorem or_shift_testBit (sem_id j s : Nat) :
    (s ||| (1 <<< sem_id)).testBit j = (s.testBit j || decide (sem_id = j)) := by
  rw [Nat.one_shiftLeft, Nat.testBit_or, Nat.testBit_two_pow]

/-- Helper: bits of the 64-bit mask `~(1ULL << sem_id)`. -/
theorem release_mask_testBit (sem_id j : Nat) (hj64 : j < 64) :
    ((1 <<< sem_id) ^^^ UINT64_MAX).testBit j = !(decide (sem_id = j)) := by
  unfold UINT64_MAX
  rw [Nat.one_shiftLeft, Nat.testBit_xor, Nat.testBit_two_pow,
    Nat.testBit_two_pow_sub_one]
  simp [hj64]

/-- C5: for every ID in [0, 31], a completed `binary_semaphore_take` observed
the bit for that ID clear, and on completion it has set that bit and returned
true. -/
theorem binary_take_valid (sem_id s : Nat) (b : Bool) (s2 : Nat)
    (hid : sem_id ≤ BINARY_SEMAPHORE_ID_MAX)
    (h : binary_semaphore_take sem_id s = some (b, s2)) :
    s.testBit sem_id = false ∧ b = true ∧ s2.testBit sem_id = true := by
  obtain ⟨hlt32, hlt64⟩ := valid_id_bounds hid
  unfold binary_semaphore_take at h
  rw [if_neg (Nat.not_lt.mpr hid)] at h
  by_cases hb : s &&& (1 <<< sem_id) ≠ 0
  · rw [if_pos hb] at h
    cases h
  · rw [if_neg hb] at h
    rw [not_not] at hb
    obtain ⟨rfl, rfl⟩ :
        true = b ∧ (s ||| (1 <<< sem_id)) % UINT32_MOD = s2 := by
      simpa using h
    refine ⟨(land_shift_eq_zero s sem_id).mp hb, rfl, ?_⟩
    rw [mod_u32_testBit _ _ hlt32, or_shift_testBit]
    simp

/-- Witness for C5 at the concrete ID 0 and empty bit vector. -/
theorem binary_take_valid_witness :
    0 ≤ BINARY_SEMAPHORE_ID_MAX ∧ binary_semaphore_take 0 0 = some (true, 1) ∧
    (Nat.testBit 0 0 = false ∧ true = true ∧ Nat.testBit 1 0 = true) :=
  ⟨by decide, by decide, binary_take_valid 0 0 true 1 (by decide) (by decide)⟩

/-- C7: for every ID in [0, 31], `binary_semaphore_release` returns true and
leaves the bit for that ID clear, for every prior state of the bit vector
(in particular with no check of which caller set the bit: the state `s` is
arbitrary, so any caller can release any semaphore, including one it never
took). -/
theorem binary_release_valid (sem_id s : Nat)
    (hid : sem_id ≤ BINARY_SEMAPHORE_ID_MAX) :
    (binary_semaphore_release sem_id s).1 = true ∧
    ((binary_semaphore_release sem_id s).2).testBit sem_id = false := by
  obtain ⟨hlt32, hlt64⟩ := valid_id_bounds hid
  unfold binary_semaphore_release
  rw [if_neg (Nat.not_lt.mpr hid)]
  refine ⟨rfl, ?_⟩
  rw [mod_u32_testBit _ _ hlt32, Nat.testBit_and, release_mask_testBit _ _ hlt64]
  simp

/-- Witness for C7 at the concrete ID 3 with the bit previously set. -/
theorem binary_release_valid_witness :
    3 ≤ BINARY_SEMAPHORE_ID_MAX ∧
    ((binary_semaphore_release 3 8).1 = true ∧
      ((binary_semaphore_release 3 8).2).testBit 3 = false) :=
  ⟨by decide, binary_release_valid 3 8 (by decide)⟩

/-- C10: for every ID in [0, 31], a completed `binary_semaphore_take` and a
`binary_semaphore_release` modify only the bit of that ID: every other bit `j`
of the 32-bit word has the same value after the operation as before it. -/
theorem binary_frame (sem_id j s : Nat) (b : Bool) (s2 : Nat)
    (hid : sem_id ≤ BINARY_SEMAPHORE_ID_MAX) (hj : j ≤ BINARY_SEMAPHORE_ID_MAX)
    (hne : j ≠ sem_id) :
    (binary_semaphore_take sem_id s = some (b, s2) → s2.testBit j = s.testBit j) ∧
    ((binary_semaphore_release sem_id s).2).testBit j = s.testBit j := by
  obtain ⟨hlt32, hlt64⟩ := valid_id_bounds hid
  obtain ⟨hjlt32, hjlt64⟩ := valid_id_bounds hj
  constructor
  · intro h
    unfold binary_semaphore_take at h
    rw [if_neg (Nat.not_lt.mpr hid)] at h
    by_cases hb : s &&& (1 <<< sem_id) ≠ 0
    · rw [if_pos hb] at h
      cases h
    · rw [if_neg hb] at h
      obtain ⟨rfl, rfl⟩ :
          true = b ∧ (s ||| (1 <<< sem_id)) % UINT32_MOD = s2 := by
        simpa using h
      have hne2 : sem_id ≠ j := fun he => hne he.symm
      rw [mod_u32_testBit _ _ hjlt32, or_shift_testBit]
      simp [hne2]
  · unfold binary_semaphore_release
    rw [if_neg (Nat.not_lt.mpr hid)]
    have hne2 : sem_id ≠ j := fun he => hne he.symm
    rw [mod_u32_testBit _ _ hjlt32, Nat.testBit_and, release_mask_testBit _ _ hjlt64]
    simp [hne2]

/-- Witness for C10 at ID 0 on a state with bit 1 set. -/
theorem binary_frame_witness :
    0 ≤ BINARY_SEMAPHORE_ID_MAX ∧ 1 ≤ BINARY_SEMAPHORE_ID_MAX ∧ (1 : Nat) ≠ 0 ∧
    ((binary_semaphore_take 0 2 = some (true, 3) →
        Nat.testBit 3 1 = Nat.testBit 2 1) ∧
      ((binary_semaphore_release 0 2).2).testBit 1 = Nat.testBit 2 1) :=
  ⟨by decide, by decide, by decide,
    binary_frame 0 1 2 true 3 (by decide) (by decide) (by decide)⟩

/-- Helper: the uint16_t modulus as a literal. -/
theorem UINT16_MOD_eq : UINT16_MOD = 65536 := by norm_num [UINT16_MOD]

/-- Helper: `counting_semaphore_release` maps the reserved counter to its
predecessor clamped at 0. -/
theorem counting_release_reserved_sub (s : counting_semaphore) :
    (counting_semaphore_release s).num_reserved_resources =
      s.num_reserved_resources - 1 := by
  unfold counting_semaphore_release
  by_cases h : s.num_reserved_resources > 0
  · simp [h]
  · simp [h]
    omega

/-- Helper: `counting_semaphore_release` keeps the total resource count. -/
theorem counting_release_total_eq (s : counting_semaphore) :
    (counting_semaphore_release s).num_total_resources =
      s.num_total_resources := by
  unfold counting_semaphore_release
  by_cases h : s.num_reserved_resources > 0 <;> simp [h]

/-- Helper: `counting_semaphore_take` completes exactly when a resource is
available, i.e. when the reserved count is below the total. -/
theorem counting_take_isSome (s : counting_semaphore) :
    (counting_semaphore_take s).isSome ↔
      s.num_reserved_resources < s.num_total_resources := by
  unfold counting_semaphore_take
  by_cases h : s.num_reserved_resources ≥ s.num_total_resources
  · simp [h]
  · simp [h]
    omega

/-- Helper: one take-or-release step preserves `reserved ≤ total` and keeps
the total, for totals below 2^16 (the uint16_t range). -/
theorem counting_apply_invariant (s : counting_semaphore) (op : CountingOp)
    (ht : s.num_total_resources < UINT16_MOD)
    (hr : s.num_reserved_resources ≤ s.num_total_resources) :
    (counting_apply s op).num_reserved_resources ≤
      (counting_apply s op).num_total_resources ∧
    (counting_apply s op).num_total_resources = s.num_total_resources := by
  rw [UINT16_MOD_eq] at ht
  cases op with
  | take =>
    unfold counting_apply counting_semaphore_take
    by_cases h : s.num_reserved_resources ≥ s.num_total_resources
    · simp [h]
      exact hr
    · rw [if_neg h]
      rw [UINT16_MOD_eq]
      constructor
      · show (s.num_reserved_resources + 1) % 65536 ≤ s.num_total_resources
        omega
      · rfl
  | release =>
    unfold counting_apply
    rw [counting_release_reserved_sub, counting_release_total_eq]
    omega

/-- Helper: every state reachable by a sequence of take/release operations
keeps `reserved ≤ total` and the original total. -/
theorem counting_run_invariant (ops : List CountingOp) (s : counting_semaphore)
    (ht : s.num_total_resources < UINT16_MOD)
    (hr : s.num_reserved_resources ≤ s.num_total_resources) :
    (counting_run s ops).num_reserved_resources ≤
      (counting_run s ops).num_total_resources ∧
    (counting_run s ops).num_total_resources = s.num_total_resources := by
  induction ops generalizing s with
  | nil => exact ⟨hr, rfl⟩
  | cons op rest ih =>
    have hstep := counting_apply_invariant s op ht hr
    have hrest := ih (counting_apply s op) (hstep.2 ▸ ht) hstep.1
    unfold counting_run at hrest ⊢
    simp only [List.foldl_cons]
    exact ⟨hrest.1, hrest.2.trans hstep.2⟩

/-- C2: starting from reserved count 0, every state reachable by take/release
steps satisfies `0 ≤ reserved ≤ capacity` (the counter is a natural number, so
the lower bound is by type); moreover take completes (incrementing the
counter) exactly when `reserved < capacity` holds, and release maps the
counter to `reserved - 1` clamped at 0. -/
theorem counting_invariant_reachable (capacity : Nat) (ops : List CountingOp)
    (hcap : capacity < UINT16_MOD) :
    ((counting_run ⟨0, capacity⟩ ops).num_reserved_resources ≤ capacity ∧
      0 ≤ (counting_run ⟨0, capacity⟩ ops).num_reserved_resources) ∧
    (∀ s : counting_semaphore,
      ((counting_semaphore_take s).isSome ↔
        s.num_reserved_resources < s.num_total_resources) ∧
      (counting_semaphore_release s).num_reserved_resources =
        s.num_reserved_resources - 1) := by
  obtain ⟨hr, ht⟩ := counting_run_invariant ops ⟨0, capacity⟩ hcap (Nat.zero_le _)
  refine ⟨⟨?_, Nat.zero_le _⟩, fun s =>
    ⟨counting_take_isSome s, counting_release_reserved_sub s⟩⟩
  rw [ht] at hr
  exact hr

/-- Witness for C2 at capacity 2 with the sequence take, take, take, release. -/
theorem counting_invariant_reachable_witness :
    2 < UINT16_MOD ∧
    (((counting_run ⟨0, 2⟩
        [CountingOp.take, CountingOp.take, CountingOp.take,
          CountingOp.release]).num_reserved_resources ≤ 2 ∧
      0 ≤ (counting_run ⟨0, 2⟩
        [CountingOp.take, CountingOp.take, CountingOp.take,
          CountingOp.release]).num_reserved_resources) ∧
    (∀ s : counting_semaphore,
      ((counting_semaphore_take s).isSome ↔
        s.num_reserved_resources < s.num_total_resources) ∧
      (counting_semaphore_release s).num_reserved_resources =
        s.num_reserved_resources - 1)) :=
  ⟨by decide, counting_invariant_reachable 2
    [CountingOp.take, CountingOp.take, CountingOp.take, CountingOp.release]
    (by decide)⟩

/-- C4: in every state reachable from creation by take/release operations, the
reserved count plus the available count equals the capacity the semaphore was
created with. -/
theorem counting_reserved_add_available (capacity : Nat) (ops : List CountingOp)
    (hcap : capacity < UINT16_MOD) :
    counting_semaphore_num_reserved (counting_run ⟨0, capacity⟩ ops) +
      counting_semaphore_num_available (counting_run ⟨0, capacity⟩ ops) =
        capacity := by
  obtain ⟨hr, ht⟩ := counting_run_invariant ops ⟨0, capacity⟩ hcap (Nat.zero_le _)
  have ht2 : (counting_run ⟨0, capacity⟩ ops).num_total_resources = capacity := ht
  rw [ht2] at hr
  unfold counting_semaphore_num_reserved counting_semaphore_num_available
  rw [ht2, UINT16_MOD_eq]
  rw [UINT16_MOD_eq] at hcap
  omega

/-- Witness for C4 at capacity 3 with the sequence take, release, take. -/
theorem counting_reserved_add_available_witness :
    3 < UINT16_MOD ∧
    counting_semaphore_num_reserved (counting_run ⟨0, 3⟩
        [CountingOp.take, CountingOp.release, CountingOp.take]) +
      counting_semaphore_num_available (counting_run ⟨0, 3⟩
        [CountingOp.take, CountingOp.release, CountingOp.take]) = 3 :=
  ⟨by decide, counting_reserved_add_available 3
    [CountingOp.take, CountingOp.release, CountingOp.take] (by decide)⟩

/-- Simulation relation between a counting semaphore created with capacity 1
and one slot (bit `sem_id`) of the binary semaphore table: the slot bit is set
exactly when the single resource is reserved, the reserved count never exceeds
the capacity 1, and the table word is a 32-bit value. -/
def binary_abstraction (cs : counting_semaphore) (sem_id s : Nat) : Prop :=
  cs.num_total_resources = 1 ∧ cs.num_reserved_resources ≤ 1 ∧ s < UINT32_MOD ∧
    (s.testBit sem_id = true ↔ cs.num_reserved_resources = 1)

/-- C3: a counting semaphore of capacity 1 and one slot of the binary
semaphore table are in simulation: their takes complete in exactly the same
states (slot free iff a resource is free), a completed counting take matches a
completed binary take returning true with the relation re-established, and
the releases match as well (both return the slot to free / the count to 0). -/
theorem counting_capacity_one_simulates_binary (cs : counting_semaphore)
    (sem_id s : Nat) (hid : sem_id ≤ BINARY_SEMAPHORE_ID_MAX)
    (hrel : binary_abstraction cs sem_id s) :
    (counting_semaphore_take cs = none ↔ binary_semaphore_take sem_id s = none) ∧
    (∀ cs2, counting_semaphore_take cs = some cs2 →
      ∃ s2, binary_semaphore_take sem_id s = some (true, s2) ∧
        binary_abstraction cs2 sem_id s2) ∧
    ((binary_semaphore_release sem_id s).1 = true ∧
      binary_abstraction (counting_semaphore_release cs) sem_id
        (binary_semaphore_release sem_id s).2) := by
  obtain ⟨ht1, hr1, hs32, hbit⟩ := hrel
  obtain ⟨hlt32, hlt64⟩ := valid_id_bounds hid
  refine ⟨?_, ?_, ?_, ?_⟩
  · unfold counting_semaphore_take binary_semaphore_take
    rw [if_neg (Nat.not_lt.mpr hid), ht1]
    by_cases h : cs.num_reserved_resources ≥ 1
    · have hb : s &&& (1 <<< sem_id) ≠ 0 :=
        (land_shift_ne_zero s sem_id).mpr (hbit.mpr (by omega))
      simp [h, hb]
    · have hr0 : cs.num_reserved_resources = 0 := by omega
      have hbitf : s.testBit sem_id = false := by
        cases hb : s.testBit sem_id
        · rfl
        · exact absurd (hbit.mp hb) (by omega)
      have heq : s &&& (1 <<< sem_id) = 0 := (land_shift_eq_zero s sem_id).mpr hbitf
      simp [h, heq]
  · intro cs2 h2
    unfold counting_semaphore_take at h2
    rw [ht1] at h2
    by_cases h : cs.num_reserved_resources ≥ 1
    · rw [if_pos h] at h2
      cases h2
    · rw [if_neg h] at h2
      have hr0 : cs.num_reserved_resources = 0 := by omega
      have hbitf : s.testBit sem_id = false := by
        cases hb : s.testBit sem_id
        · rfl
        · exact absurd (hbit.mp hb) (by omega)
      have hcs2 : (⟨(cs.num_reserved_resources + 1) % UINT16_MOD, 1⟩ :
          counting_semaphore) = cs2 := Option.some.inj h2
      have hres : cs2.num_reserved_resources = 1 := by
        rw [← hcs2, hr0]
        decide
      refine ⟨(s ||| (1 <<< sem_id)) % UINT32_MOD, ?_, ?_, ?_, ?_, ?_⟩
      · unfold binary_semaphore_take
        rw [if_neg (Nat.not_lt.mpr hid),
          if_neg (by rw [not_not]; exact (land_shift_eq_zero s sem_id).mpr hbitf)]
      · rw [← hcs2]
      · omega
      · exact Nat.mod_lt _ (by norm_num [UINT32_MOD])
      · rw [mod_u32_testBit _ _ hlt32, or_shift_testBit]
        simp [hres]
  · unfold binary_semaphore_release
    rw [if_neg (Nat.not_lt.mpr hid)]
  · have hres : (counting_semaphore_release cs).num_reserved_resources = 0 := by
      rw [counting_release_reserved_sub]
      omega
    refine ⟨?_, ?_, ?_, ?_⟩
    · rw [counting_release_total_eq, ht1]
    · omega
    · unfold binary_semaphore_release
      rw [if_neg (Nat.not_lt.mpr hid)]
      exact Nat.mod_lt _ (by norm_num [UINT32_MOD])
    · unfold binary_semaphore_release
      rw [if_neg (Nat.not_lt.mpr hid)]
      have hne : sem_id = sem_id := rfl
      rw [hres]
      simp only []
      rw [mod_u32_testBit _ _ hlt32, Nat.testBit_and,
        release_mask_testBit _ _ hlt64]
      simp

/-- Witness for C3 at slot 0 with the free counting semaphore of capacity 1
related to the empty bit vector. -/
theorem counting_capacity_one_simulates_binary_witness :
    0 ≤ BINARY_SEMAPHORE_ID_MAX ∧ binary_abstraction ⟨0, 1⟩ 0 0 ∧
    ((counting_semaphore_take ⟨0, 1⟩ = none ↔ binary_semaphore_take 0 0 = none) ∧
      (∀ cs2, counting_semaphore_take ⟨0, 1⟩ = some cs2 →
        ∃ s2, binary_semaphore_take 0 0 = some (true, s2) ∧
          binary_abstraction cs2 0 s2) ∧
      ((binary_semaphore_release 0 0).1 = true ∧
        binary_abstraction (counting_semaphore_release ⟨0, 1⟩) 0
          (binary_semaphore_release 0 0).2)) :=
  ⟨by decide, by unfold binary_abstraction; decide,
    counting_capacity_one_simulates_binary ⟨0, 1⟩ 0 0 (by decide)
      (by unfold binary_abstraction; decide)⟩

/-- Program position of a thread inside `counting_semaphore_take`, split at
the function's two accesses to the shared counter: `idle` (before the call or
still spinning), `passedGuard` (the spin-loop condition
`num_reserved_resources >= num_total_resources` just evaluated to false, the
loop exited, the increment has not happened yet), and `holding` (the
increment `num_reserved_resources++` has been performed: the call completed). -/
inductive ThreadPhase where
  | idle
  | passedGuard
  | holding
  deriving DecidableEq

/-- Shared state of one counting semaphore together with the positions of two
threads concurrently executing `counting_semaphore_take` on it.  The code
performs no atomic or locked access: the guard read and the increment of
`num_reserved_resources` are separate memory operations, so steps of the two
threads may interleave between them. -/
structure RaceState where
  num_reserved_resources : Nat
  num_total_resources : Nat
  phase0 : ThreadPhase
  phase1 : ThreadPhase
  deriving DecidableEq

/-- Interleaved events: thread 0 or 1 evaluating the spin-loop guard to false,
or performing the increment. -/
inductive RaceEvent where
  | guard0
  | guard1
  | inc0
  | inc1
  deriving DecidableEq

/-- One interleaved step of the two threads running `counting_semaphore_take`
from semaphore.c.  A guard event fires when the thread is idle and its read of
the counter observes `num_reserved_resources >= num_total_resources` false
(the while loop exits); an increment event fires when the thread has passed
the guard and performs `num_reserved_resources++` (a uint16_t increment). -/
def race_step (s : RaceState) (e : RaceEvent) : Option RaceState :=
  match e with
  | RaceEvent.guard0 =>
      if s.phase0 = ThreadPhase.idle ∧
          ¬ s.num_reserved_resources ≥ s.num_total_resources then
        some ⟨s.num_reserved_resources, s.num_total_resources,
          ThreadPhase.passedGuard, s.phase1⟩
      else none
  | RaceEvent.guard1 =>
      if s.phase1 = ThreadPhase.idle ∧
          ¬ s.num_reserved_resources ≥ s.num_total_resources then
        some ⟨s.num_reserved_resources, s.num_total_resources,
          s.phase0, ThreadPhase.passedGuard⟩
      else none
  | RaceEvent.inc0 =>
      if s.phase0 = ThreadPhase.passedGuard then
        some ⟨(s.num_reserved_resources + 1) % UINT16_MOD,
          s.num_total_resources, ThreadPhase.holding, s.phase1⟩
      else none
  | RaceEvent.inc1 =>
      if s.phase1 = ThreadPhase.passedGuard then
        some ⟨(s.num_reserved_resources + 1) % UINT16_MOD,
          s.num_total_resources, s.phase0, ThreadPhase.holding⟩
      else none

/-- Execution of a sequence of interleaved events; `none` when some event is
not enabled in its state. -/
def race_run : RaceState → List RaceEvent → Option RaceState
  | s, [] => some s
  | s, e :: es =>
      match race_step s e with
      | none => none
      | some t => race_run t es

/-- Number of threads that have completed `counting_semaphore_take` (and have
not released) in a race state. -/
def RaceState.num_holders (s : RaceState) : Nat :=
  (if s.phase0 = ThreadPhase.holding then 1 else 0) +
    (if s.phase1 = ThreadPhase.holding then 1 else 0)

/-- C1: the guarantee fails on the code as written.  With a counting semaphore
of capacity 1 and both threads initially idle, the interleaving in which both
threads evaluate the spin-loop guard (each observing reserved = 0 < 1) before
either performs the increment is a run of `counting_semaphore_take`'s
non-atomic check-then-increment; it ends with both threads having completed
take, so 2 threads concurrently hold a semaphore of capacity 1 and the
reserved count is 2 > 1. -/
theorem counting_take_capacity_race :
    race_run ⟨0, 1, ThreadPhase.idle, ThreadPhase.idle⟩
        [RaceEvent.guard0, RaceEvent.guard1, RaceEvent.inc0, RaceEvent.inc1] =
      some ⟨2, 1, ThreadPhase.holding, ThreadPhase.holding⟩ ∧
    RaceState.num_holders ⟨2, 1, ThreadPhase.holding, ThreadPhase.holding⟩ = 2 ∧
    (⟨2, 1, ThreadPhase.holding, ThreadPhase.holding⟩ :
      RaceState).num_total_resources = 1 := by
  refine ⟨by decide, by decide, rfl⟩
